import Mathlib

set_option maxRecDepth 100000

/-!
Verification of the candle-normalization pipeline (src/transform.py).

Shallow embedding conventions:
* A pandas DataFrame is a list of row records, in row order.
* UTC timestamps are naturals, in seconds since the epoch; a value that failed
  pd.to_datetime parsing (NaT, from errors="coerce") is modelled as none.
* Float columns are Option Rat; NaN (from pd.to_numeric errors="coerce", or a
  reindexed hole) is modelled as none.  Division by zero (pandas inf/NaN) is
  outside the model; theorems that divide carry positivity hypotheses.
* The pipeline targets pandas 2.x (the "T" frequency alias and format="mixed"
  both require it); there close.pct_change() uses the default
  fill_method="pad", i.e. the close column is forward-filled before the
  shifted division.  _flag_spike embeds exactly that.
* sort_values is modelled as a stable sort with NaT placed last
  (na_position="last"), and drop_duplicates keeps the first occurrence.
* resample(freq) buckets (normalize_coingecko) are aligned to the default
  origin "start_day": midnight of the day of the first timestamp.  Aggregation
  inside a bucket skips NaN values, as the pandas groupby kernels do.
-/

namespace CryptoPipeline

/-- One raw row of the Kraken OHLC CSV, after the column coercions at the top
of normalize_kraken: time is the parsed timestamp (none = NaT) and the seven
numeric columns are parsed numbers (none = NaN). -/
structure KrakenRaw where
  time : Option Nat
  open_ : Option Rat
  high : Option Rat
  low : Option Rat
  close : Option Rat
  vwap : Option Rat
  volume : Option Rat
  count : Option Rat
deriving DecidableEq, Repr

/-- One raw row of the CoinGecko market-chart CSV, after parsing: ts is the
parsed timestamp (none = NaT), price and volume parsed numbers. -/
structure CoingeckoRaw where
  ts : Option Nat
  price : Option Rat
  volume : Option Rat
deriving DecidableEq, Repr

/-- One normalized candle: the fifteen output columns of the transform stage,
in the column order fixed at the end of normalize_kraken / normalize_coingecko. -/
structure Candle where
  source : String
  asset : String
  interval_min : Nat
  ts_start : Nat
  open_ : Option Rat
  high : Option Rat
  low : Option Rat
  close : Option Rat
  vwap : Option Rat
  volume : Option Rat
  count : Option Rat
  is_missing : Bool
  bad_candle : Bool
  spike_flag : Bool
  anomaly_flag : Bool
deriving DecidableEq, Repr

/-- Intermediate row on the reindexed grid, before the flag columns are added
(the state of the frame right after reindex / resample-join). -/
structure GridRow where
  ts_start : Nat
  open_ : Option Rat
  high : Option Rat
  low : Option Rat
  close : Option Rat
  vwap : Option Rat
  volume : Option Rat
  count : Option Rat
deriving DecidableEq, Repr

/-- Comparison used by sort_values on a parsed timestamp column:
NaT (none) sorts last (the pandas default na_position="last"). -/
def timeLeB : Option Nat → Option Nat → Bool
  | some x, some y => decide (x ≤ y)
  | some _, none => true
  | none, some _ => false
  | none, none => true

/-- df.drop_duplicates(col): keep the first row for each key value
(pandas keep="first"; NaN keys are also deduplicated). -/
def drop_duplicates_by {α β : Type} [DecidableEq β] (key : α → β) (l : List α) : List α :=
  go [] l
where
  go (seen : List β) : List α → List α
    | [] => []
    | x :: xs => if key x ∈ seen then go seen xs else x :: go (key x :: seen) xs

/-- pd.date_range(tmin, tmax, freq=step): tmin, tmin+step, ... up to the last
point that is at most tmax (inclusive of tmax only when it is on the grid). -/
def date_range (tmin tmax step : Nat) : List Nat :=
  (List.range ((tmax - tmin) / step + 1)).map (fun k => tmin + step * k)

/-- A single NaN-propagating strict comparison, as pandas evaluates
(a < b) on float columns: a comparison against NaN is False. -/
def optLtB : Option Rat → Option Rat → Bool
  | some x, some y => decide (x < y)
  | _, _ => false

/-- _flag_bad_candle, rowwise:
bad = (high < open_) | (high < close) | (low > open_) | (low > close) | (low > high),
then fillna(False); a comparison touching NaN is already False. -/
def _flag_bad_candle (open_ high low close : Option Rat) : Bool :=
  optLtB high open_ || optLtB high close || optLtB open_ low || optLtB close low || optLtB high low

/-- Forward-fill state machine: lastVal prev l is the last non-none entry of l,
or prev when l has none.  This is the running value pandas ffill carries. -/
def lastVal (prev : Option Rat) : List (Option Rat) → Option Rat
  | [] => prev
  | c :: cs => lastVal (c.or prev) cs

/-- One entry of close.pct_change().abs() > spike_pct (pandas 2.x pad
semantics), then fillna(False): prev and cur are the forward-filled values at
rows t-1 and t; any NaN left after padding gives False. -/
def spikeVal (spike_pct : Rat) (prev cur : Option Rat) : Bool :=
  match prev, cur with
  | some pv, some cv => decide (|cv / pv - 1| > spike_pct)
  | _, _ => false

/-- Helper for _flag_spike: walks the close column carrying the forward-filled
previous value prev (none before the first non-null close). -/
def spikeAux (spike_pct : Rat) (prev : Option Rat) : List (Option Rat) → List Bool
  | [] => []
  | c :: cs => spikeVal spike_pct prev (c.or prev) :: spikeAux spike_pct (c.or prev) cs

/-- _flag_spike: spike = close.pct_change().abs() > spike_pct; spike.fillna(False).
pct_change in pandas 2.x forward-fills the column (fill_method="pad") before
dividing row t by row t-1. -/
def _flag_spike (spike_pct : Rat) (closes : List (Option Rat)) : List Bool :=
  spikeAux spike_pct none closes

/-- Assembly of one output row from a grid row and its spike flag, with the
derived columns exactly as normalize_kraken / normalize_coingecko add them:
is_missing = open.isna(), bad_candle from _flag_bad_candle,
anomaly_flag = bad_candle | spike_flag. -/
def candleOf (source asset : String) (interval_min : Nat) (b : GridRow) (sp : Bool) : Candle :=
  { source := source
    asset := asset
    interval_min := interval_min
    ts_start := b.ts_start
    open_ := b.open_
    high := b.high
    low := b.low
    close := b.close
    vwap := b.vwap
    volume := b.volume
    count := b.count
    is_missing := b.open_.isNone
    bad_candle := _flag_bad_candle b.open_ b.high b.low b.close
    spike_flag := sp
    anomaly_flag := _flag_bad_candle b.open_ b.high b.low b.close || sp }

/-- The flag-adding tail shared by both normalizers: compute the spike column
from the reindexed close column and build the fifteen output columns. -/
def attachFlags (source asset : String) (interval_min : Nat) (spike_pct : Rat)
    (base : List GridRow) : List Candle :=
  (base.zip (_flag_spike spike_pct (base.map (fun b => b.close)))).map
    (fun pr => candleOf source asset interval_min pr.1 pr.2)

/-- df.sort_values("time") for the Kraken frame (stable, NaT last). -/
def kraken_sorted (df : List KrakenRaw) : List KrakenRaw :=
  List.insertionSort (fun a b => timeLeB a.time b.time = true) df

/-- df.sort_values("time").drop_duplicates("time"). -/
def kraken_dedup (df : List KrakenRaw) : List KrakenRaw :=
  drop_duplicates_by (fun r => r.time) (kraken_sorted df)

/-- The parsed (non-NaT) timestamps surviving in the index, in index order;
df.index.min() / .max() skip NaT, so they are min? / max? of this list. -/
def kraken_times (df : List KrakenRaw) : List Nat :=
  (kraken_dedup df).filterMap (fun r => r.time)

/-- df.reindex(full_index) at one grid point: the row whose (unique, deduped)
timestamp matches exactly, otherwise a hole row of NaNs. -/
def kraken_grid_row (dd : List KrakenRaw) (g : Nat) : GridRow :=
  match dd.find? (fun r => decide (r.time = some g)) with
  | some r =>
    { ts_start := g, open_ := r.open_, high := r.high, low := r.low,
      close := r.close, vwap := r.vwap, volume := r.volume, count := r.count }
  | none =>
    { ts_start := g, open_ := none, high := none, low := none,
      close := none, vwap := none, volume := none, count := none }

/-- normalize_kraken.  df.index.min() on an empty or all-NaT index is NaT and
pd.date_range then raises ValueError, modelled as Except.error. -/
def normalize_kraken (df : List KrakenRaw) (asset : String) (interval_min : Nat)
    (spike_pct : Rat) : Except String (List Candle) :=
  match (kraken_times df).min?, (kraken_times df).max? with
  | some tmin, some tmax =>
    Except.ok (attachFlags "kraken" asset interval_min spike_pct
      ((date_range tmin tmax (interval_min * 60)).map (kraken_grid_row (kraken_dedup df))))
  | _, _ => Except.error "ValueError in date_range, start or end is NaT"

/-- df.sort_values("ts") for the CoinGecko frame. -/
def cg_sorted (df : List CoingeckoRaw) : List CoingeckoRaw :=
  List.insertionSort (fun a b => timeLeB a.ts b.ts = true) df

/-- df.sort_values("ts").drop_duplicates("ts"). -/
def cg_dedup (df : List CoingeckoRaw) : List CoingeckoRaw :=
  drop_duplicates_by (fun r => r.ts) (cg_sorted df)

/-- The tick stream the resampler actually groups: rows with a parsed
timestamp (resample drops NaT index entries), in time order. -/
def cg_valid (df : List CoingeckoRaw) : List (Nat × Option Rat × Option Rat) :=
  (cg_dedup df).filterMap (fun r => r.ts.map (fun t => (t, r.price, r.volume)))

/-- The timestamps seen by the resampler. -/
def cg_times (df : List CoingeckoRaw) : List Nat :=
  (cg_valid df).map (fun x => x.1)

/-- The resample bucket start for timestamp t: freq-multiples counted from
day0, the midnight opening the resample origin day (origin="start_day"). -/
def cg_bucket (day0 step t : Nat) : Nat :=
  day0 + (t - day0) / step * step

/-- Series.resample(freq).mean() inside one bucket: mean of the non-NaN
values, NaN when there are none. -/
def meanQ (l : List Rat) : Option Rat :=
  match l with
  | [] => none
  | _ => some (l.sum / (l.length : Rat))

/-- One resampled bucket: prices in tick-time order give
open=first, high=max, low=min, close=last (NaN ticks skipped, empty bucket =
all NaN); volume is the per-bucket mean; vwap and count are the constant
pd.NA columns added after the join. -/
def cg_grid_row (valid : List (Nat × Option Rat × Option Rat)) (day0 step b : Nat) : GridRow :=
  { ts_start := b
    open_ := ((valid.filter (fun x => decide (cg_bucket day0 step x.1 = b))).filterMap
      (fun x => x.2.1)).head?
    high := ((valid.filter (fun x => decide (cg_bucket day0 step x.1 = b))).filterMap
      (fun x => x.2.1)).max?
    low := ((valid.filter (fun x => decide (cg_bucket day0 step x.1 = b))).filterMap
      (fun x => x.2.1)).min?
    close := ((valid.filter (fun x => decide (cg_bucket day0 step x.1 = b))).filterMap
      (fun x => x.2.1)).getLast?
    vwap := none
    volume := meanQ ((valid.filter (fun x => decide (cg_bucket day0 step x.1 = b))).filterMap
      (fun x => x.2.2))
    count := none }

/-- normalize_coingecko.  A zero-row input short-circuits inside resample
(the axis has length 0) and yields an empty frame, so the function returns an
empty candle table without raising.  A non-empty index whose entries are all
NaT does not short-circuit: the bin edges come from index.min() and
index.max(), both NaT, and pd.date_range then raises ValueError, modelled as
Except.error. -/
def normalize_coingecko (df : List CoingeckoRaw) (asset : String) (interval_min : Nat)
    (spike_pct : Rat) : Except String (List Candle) :=
  if cg_dedup df = [] then
    Except.ok []
  else
    match (cg_times df).min?, (cg_times df).max? with
    | some tmin, some tmax =>
      Except.ok (attachFlags "coingecko" asset interval_min spike_pct
        ((date_range (cg_bucket (tmin / 86400 * 86400) (interval_min * 60) tmin)
                     (cg_bucket (tmin / 86400 * 86400) (interval_min * 60) tmax)
                     (interval_min * 60)).map
          (cg_grid_row (cg_valid df) (tmin / 86400 * 86400) (interval_min * 60))))
    | _, _ => Except.error "ValueError in date_range, start or end is NaT"

/-- The sort key of transform: combined.sort_values(["ts_start", "source"]),
both ascending. -/
def candle_le (a b : Candle) : Bool :=
  decide (a.ts_start < b.ts_start) ||
    (decide (a.ts_start = b.ts_start) && decide (a.source ≤ b.source))

/-- The combiner inside transform: pd.concat([cg_norm, kr_norm]) followed by
sort_values(["ts_start", "source"]). -/
def combine (cg_norm kr_norm : List Candle) : List Candle :=
  List.insertionSort (fun a b => candle_le a b = true) (cg_norm ++ kr_norm)

/-- Two runs of normalize_kraken on the same input, for the idempotence claim. -/
def run_twice_kraken (df : List KrakenRaw) (asset : String) (interval_min : Nat)
    (spike_pct : Rat) : Except String (List Candle) × Except String (List Candle) :=
  (normalize_kraken df asset interval_min spike_pct,
   normalize_kraken df asset interval_min spike_pct)

/-- Two runs of normalize_coingecko on the same input. -/
def run_twice_coingecko (df : List CoingeckoRaw) (asset : String) (interval_min : Nat)
    (spike_pct : Rat) : Except String (List Candle) × Except String (List Candle) :=
  (normalize_coingecko df asset interval_min spike_pct,
   normalize_coingecko df asset interval_min spike_pct)

/-- Spec-side value comparison on nullable cells: a is a number, b is a
number, and a is strictly below b.  A comparison involving a null cell never
holds. -/
def optLtP (a b : Option Rat) : Prop :=
  ∃ x y, a = some x ∧ b = some y ∧ x < y

/-- The spec wording of the bad-candle rule: high < open, or high < close, or
low > open, or low > close, or low > high (each comparison false on nulls). -/
def bad_candle_spec (r : Candle) : Prop :=
  optLtP r.high r.open_ ∨ optLtP r.high r.close ∨ optLtP r.open_ r.low ∨
    optLtP r.close r.low ∨ optLtP r.high r.low

/-! Concrete inputs used by the witnesses and counterexamples. -/

/-- Kraken rows at minute 10 and minute 0 (unsorted on purpose): with
interval_min = 5 the grid is 0, 300, 600 with a hole at 300, and the close
column is 100, NaN, 150. -/
def exKr : List KrakenRaw :=
  [ { time := some 600, open_ := some 110, high := some 160, low := some 100, close := some 150,
      vwap := some 111, volume := some 7, count := some 3 },
    { time := some 0, open_ := some 100, high := some 105, low := some 95, close := some 100,
      vwap := some 101, volume := some 5, count := some 2 } ]

/-- A single Kraken row carrying the inconsistent candle of the spec scenario:
open=10, high=5, low=1, close=8. -/
def exKrBad : List KrakenRaw :=
  [ { time := some 0, open_ := some 10, high := some 5, low := some 1, close := some 8,
      vwap := some 9, volume := some 2, count := some 1 } ]

/-- A Kraken frame whose only timestamp fails to parse. -/
def exKrNaT : List KrakenRaw :=
  [ { time := none, open_ := some 1, high := some 1, low := some 1, close := some 1,
      vwap := none, volume := none, count := none } ]

/-- One CoinGecko tick at second 180 (minute 3): with interval_min = 5 the
resample bucket starts at 0, not at the minimum raw timestamp 180. -/
def exCg : List CoingeckoRaw :=
  [ { ts := some 180, price := some 100, volume := some 5 } ]

/-- A CoinGecko frame whose only timestamp fails to parse. -/
def exCgNaT : List CoingeckoRaw :=
  [ { ts := none, price := some 1, volume := none } ]

/-- A one-row normalized table with source providerA, for the combiner claims. -/
def exT1 : List Candle :=
  [ { source := "coingecko", asset := "BTC", interval_min := 5, ts_start := 32400,
      open_ := some 1, high := some 2, low := some 1, close := some 2, vwap := none,
      volume := some 3, count := none, is_missing := false, bad_candle := false,
      spike_flag := false, anomaly_flag := false } ]

/-- A one-row normalized table with source providerB at the same ts_start. -/
def exT2 : List Candle :=
  [ { source := "kraken", asset := "BTC", interval_min := 5, ts_start := 32400,
      open_ := some 4, high := some 5, low := some 3, close := some 4, vwap := some 4,
      volume := some 6, count := some 2, is_missing := false, bad_candle := false,
      spike_flag := false, anomaly_flag := false } ]

/-- The expected normalize_kraken output for exKr at interval_min=5,
spike_pct=0.10: rows at 0, 300 (hole), 600; the close column is
100, NaN, 150 and pad-based pct_change flags the 600 row as a spike. -/
def exKrRow0 : Candle :=
  { source := "kraken", asset := "BTC", interval_min := 5, ts_start := 0,
    open_ := some 100, high := some 105, low := some 95, close := some 100,
    vwap := some 101, volume := some 5, count := some 2,
    is_missing := false, bad_candle := false, spike_flag := false, anomaly_flag := false }

/-- The filled hole at second 300 of the exKr grid. -/
def exKrRow300 : Candle :=
  { source := "kraken", asset := "BTC", interval_min := 5, ts_start := 300,
    open_ := none, high := none, low := none, close := none,
    vwap := none, volume := none, count := none,
    is_missing := true, bad_candle := false, spike_flag := false, anomaly_flag := false }

/-- The exKr row at second 600: a 50 percent close-to-close move, flagged. -/
def exKrRow600 : Candle :=
  { source := "kraken", asset := "BTC", interval_min := 5, ts_start := 600,
    open_ := some 110, high := some 160, low := some 100, close := some 150,
    vwap := some 111, volume := some 7, count := some 3,
    is_missing := false, bad_candle := false, spike_flag := true, anomaly_flag := true }

/-- The full expected output table for exKr. -/
def exKrOut : List Candle :=
  [exKrRow0, exKrRow300, exKrRow600]

/-- The expected output row for exKrBad: internally inconsistent OHLC, so
bad_candle is set. -/
def exKrBadRow : Candle :=
  { source := "kraken", asset := "BTC", interval_min := 5, ts_start := 0,
    open_ := some 10, high := some 5, low := some 1, close := some 8,
    vwap := some 9, volume := some 2, count := some 1,
    is_missing := false, bad_candle := true, spike_flag := false, anomaly_flag := true }

/-- The expected single output row for exCg: the lone tick at second 180
lands in the calendar bucket starting at 0. -/
def exCgRow : Candle :=
  { source := "coingecko", asset := "BTC", interval_min := 5, ts_start := 0,
    open_ := some 100, high := some 100, low := some 100, close := some 100,
    vwap := none, volume := some 5, count := none,
    is_missing := false, bad_candle := false, spike_flag := false, anomaly_flag := false }

/-- The close column of the exKr grid, used to exercise the spike rule
across a missing candle. -/
def exCloses : List (Option Rat) :=
  [some 100, none, some 150]

/-! Helper lemmas about the embedded table operations. -/

theorem mem_of_mem_go {α β : Type} [DecidableEq β] (key : α → β) (seen : List β)
    (l : List α) {a : α} (h : a ∈ drop_duplicates_by.go key seen l) : a ∈ l := by
  induction l generalizing seen with
  | nil => simpa [drop_duplicates_by.go] using h
  | cons x xs ih =>
    simp only [drop_duplicates_by.go] at h
    split at h
    · exact List.mem_cons_of_mem _ (ih _ h)
    · rcases List.mem_cons.mp h with rfl | h2
      · exact List.mem_cons_self _ _
      · exact List.mem_cons_of_mem _ (ih _ h2)

theorem mem_drop_duplicates_by {α β : Type} [DecidableEq β] (key : α → β)
    (l : List α) {a : α} (h : a ∈ drop_duplicates_by key l) : a ∈ l :=
  mem_of_mem_go key [] l h

theorem exists_key_go {α β : Type} [DecidableEq β] (key : α → β) (seen : List β)
    (l : List α) (b : β) (hb : b ∉ seen) :
    (∃ a ∈ drop_duplicates_by.go key seen l, key a = b) ↔ (∃ a ∈ l, key a = b) := by
  induction l generalizing seen with
  | nil => simp [drop_duplicates_by.go]
  | cons x xs ih =>
    simp only [drop_duplicates_by.go]
    split
    case isTrue hx =>
      rw [ih seen hb]
      constructor
      · rintro ⟨a, ha, rfl⟩; exact ⟨a, List.mem_cons_of_mem _ ha, rfl⟩
      · rintro ⟨a, ha, rfl⟩
        rcases List.mem_cons.mp ha with rfl | ha2
        · exact absurd hx (by simpa using fun hh => hb hh)
        · exact ⟨a, ha2, rfl⟩
    case isFalse hx =>
      by_cases hbx : b = key x
      · subst hbx
        constructor
        · rintro -; exact ⟨x, List.mem_cons_self _ _, rfl⟩
        · rintro -; exact ⟨x, List.mem_cons_self _ _, rfl⟩
      · have hb2 : b ∉ key x :: seen := by
          intro hmem
          rcases List.mem_cons.mp hmem with h1 | h1
          · exact hbx h1
          · exact hb h1
        rw [show (∃ a ∈ x :: drop_duplicates_by.go key (key x :: seen) xs, key a = b) ↔
            (∃ a ∈ drop_duplicates_by.go key (key x :: seen) xs, key a = b) by
          constructor
          · rintro ⟨a, ha, rfl⟩
            rcases List.mem_cons.mp ha with rfl | ha2
            · exact absurd rfl hbx
            · exact ⟨a, ha2, rfl⟩
          · rintro ⟨a, ha, rfl⟩; exact ⟨a, List.mem_cons_of_mem _ ha, rfl⟩]
        rw [ih _ hb2]
        constructor
        · rintro ⟨a, ha, rfl⟩; exact ⟨a, List.mem_cons_of_mem _ ha, rfl⟩
        · rintro ⟨a, ha, rfl⟩
          rcases List.mem_cons.mp ha with rfl | ha2
          · exact absurd rfl hbx
          · exact ⟨a, ha2, rfl⟩

theorem exists_key_drop_duplicates_by {α β : Type} [DecidableEq β] (key : α → β)
    (l : List α) (b : β) :
    (∃ a ∈ drop_duplicates_by key l, key a = b) ↔ (∃ a ∈ l, key a = b) :=
  exists_key_go key [] l b (by simp)

theorem mem_kraken_times (df : List KrakenRaw) (t : Nat) :
    t ∈ kraken_times df ↔ ∃ r ∈ df, r.time = some t := by
  unfold kraken_times
  rw [List.mem_filterMap]
  constructor
  · rintro ⟨r, hr, ht⟩
    exact ⟨r, (List.mem_insertionSort _).mp (mem_drop_duplicates_by _ _ hr), ht⟩
  · rintro ⟨r, hr, ht⟩
    rcases (exists_key_drop_duplicates_by (fun r => r.time) (kraken_sorted df) (some t)).mpr
      ⟨r, (List.mem_insertionSort _).mpr hr, ht⟩ with ⟨a, ha, hat⟩
    exact ⟨a, ha, hat⟩

theorem mem_cg_times (df : List CoingeckoRaw) (t : Nat) :
    t ∈ cg_times df ↔ ∃ r ∈ df, r.ts = some t := by
  unfold cg_times cg_valid
  constructor
  · intro h
    rcases List.mem_map.mp h with ⟨x, hx, rfl⟩
    rcases List.mem_filterMap.mp hx with ⟨r, hr, hrx⟩
    rcases Option.map_eq_some'.mp hrx with ⟨u, hu, rfl⟩
    exact ⟨r, (List.mem_insertionSort _).mp (mem_drop_duplicates_by _ _ hr), hu⟩
  · rintro ⟨r, hr, ht⟩
    rcases (exists_key_drop_duplicates_by (fun r => r.ts) (cg_sorted df) (some t)).mpr
      ⟨r, (List.mem_insertionSort _).mpr hr, ht⟩ with ⟨a, ha, hat⟩
    refine List.mem_map.mpr ⟨(t, a.price, a.volume), List.mem_filterMap.mpr ⟨a, ha, ?_⟩, rfl⟩
    rw [hat]; rfl

theorem lastVal_append (prev : Option Rat) (l1 l2 : List (Option Rat)) :
    lastVal prev (l1 ++ l2) = lastVal (lastVal prev l1) l2 := by
  induction l1 generalizing prev with
  | nil => rfl
  | cons c cs ih => simp [lastVal, ih]

theorem lastVal_mem {prev : Option Rat} {l : List (Option Rat)} {v : Rat}
    (h : lastVal prev l = some v) : some v ∈ l ∨ prev = some v := by
  induction l generalizing prev with
  | nil => exact Or.inr h
  | cons c cs ih =>
    rw [lastVal] at h
    rcases ih h with h1 | h1
    · exact Or.inl (List.mem_cons_of_mem _ h1)
    · cases c with
      | some x =>
        left
        have hx : x = v := by simpa [Option.or] using h1
        subst hx
        exact List.mem_cons_self _ _
      | none =>
        right
        simpa [Option.or] using h1

theorem length_spikeAux (p : Rat) (prev : Option Rat) (l : List (Option Rat)) :
    (spikeAux p prev l).length = l.length := by
  induction l generalizing prev with
  | nil => rfl
  | cons c cs ih => simp [spikeAux, ih]

theorem length_flag_spike (p : Rat) (l : List (Option Rat)) :
    (_flag_spike p l).length = l.length :=
  length_spikeAux p none l

theorem spikeAux_getElem? (p : Rat) (prev : Option Rat) (l : List (Option Rat))
    (t : Nat) (h : t < l.length) :
    (spikeAux p prev l)[t]? =
      some (spikeVal p (lastVal prev (l.take t)) (lastVal prev (l.take (t + 1)))) := by
  induction l generalizing prev t with
  | nil => simp at h
  | cons c cs ih =>
    cases t with
    | zero => simp [spikeAux, lastVal]
    | succ t =>
      have h2 : t < cs.length := by simpa using h
      simp only [spikeAux, List.getElem?_cons_succ, List.take_succ_cons, lastVal]
      exact ih (c.or prev) t h2

theorem head?_date_range (a b s : Nat) : (date_range a b s).head? = some a := by
  unfold date_range
  rw [List.range_succ_eq_map, List.map_cons, List.head?_cons]
  simp

theorem chain'_date_range (a b s : Nat) :
    List.Chain' (fun x y => y = x + s) (date_range a b s) := by
  unfold date_range
  rw [List.chain'_map]
  refine (List.chain'_range_succ (fun m1 m2 => a + s * m2 = a + s * m1 + s) ((b - a) / s)).mpr ?_
  intro m _
  rw [Nat.mul_succ, Nat.add_assoc]

theorem mem_date_range {x a b s : Nat} (h : x ∈ date_range a b s) :
    ∃ k, x = a + s * k := by
  unfold date_range at h
  rcases List.mem_map.mp h with ⟨k, _, rfl⟩
  exact ⟨k, rfl⟩

theorem length_flag_spike_map (p : Rat) (base : List GridRow) :
    (_flag_spike p (base.map (fun b => b.close))).length = base.length := by
  rw [length_flag_spike, List.length_map]

theorem map_ts_attachFlags (s a : String) (i : Nat) (p : Rat) (base : List GridRow) :
    (attachFlags s a i p base).map (fun r => r.ts_start) = base.map (fun b => b.ts_start) := by
  unfold attachFlags
  rw [List.map_map]
  have h1 : ((fun r => r.ts_start) ∘ fun pr : GridRow × Bool => candleOf s a i pr.1 pr.2)
      = (fun b : GridRow => b.ts_start) ∘ Prod.fst := rfl
  rw [h1, ← List.map_map, List.map_fst_zip]
  rw [length_flag_spike_map]

theorem map_close_attachFlags (s a : String) (i : Nat) (p : Rat) (base : List GridRow) :
    (attachFlags s a i p base).map (fun r => r.close) = base.map (fun b => b.close) := by
  unfold attachFlags
  rw [List.map_map]
  have h1 : ((fun r => r.close) ∘ fun pr : GridRow × Bool => candleOf s a i pr.1 pr.2)
      = (fun b : GridRow => b.close) ∘ Prod.fst := rfl
  rw [h1, ← List.map_map, List.map_fst_zip]
  rw [length_flag_spike_map]

theorem map_spike_attachFlags (s a : String) (i : Nat) (p : Rat) (base : List GridRow) :
    (attachFlags s a i p base).map (fun r => r.spike_flag)
      = _flag_spike p (base.map (fun b => b.close)) := by
  unfold attachFlags
  rw [List.map_map]
  have h1 : ((fun r => r.spike_flag) ∘ fun pr : GridRow × Bool => candleOf s a i pr.1 pr.2)
      = Prod.snd := rfl
  rw [h1, List.map_snd_zip]
  rw [length_flag_spike_map]

theorem mem_attachFlags {s a : String} {i : Nat} {p : Rat} {base : List GridRow} {r : Candle}
    (h : r ∈ attachFlags s a i p base) :
    ∃ b sp, b ∈ base ∧ r = candleOf s a i b sp := by
  unfold attachFlags at h
  rcases List.mem_map.mp h with ⟨pr, hpr, rfl⟩
  exact ⟨pr.1, pr.2, (List.mem_zip hpr).1, rfl⟩

theorem candle_le_iff (a b : Candle) :
    candle_le a b = true ↔
      (a.ts_start < b.ts_start ∨ (a.ts_start = b.ts_start ∧ a.source ≤ b.source)) := by
  simp [candle_le]

instance : IsTotal Candle (fun a b => candle_le a b = true) := by
  constructor
  intro a b
  rw [candle_le_iff, candle_le_iff]
  rcases Nat.lt_trichotomy a.ts_start b.ts_start with h | h | h
  · exact Or.inl (Or.inl h)
  · rcases le_total a.source b.source with hs | hs
    · exact Or.inl (Or.inr ⟨h, hs⟩)
    · exact Or.inr (Or.inr ⟨h.symm, hs⟩)
  · exact Or.inr (Or.inl h)

instance : IsTrans Candle (fun a b => candle_le a b = true) := by
  constructor
  intro a b c hab hbc
  rw [candle_le_iff] at hab hbc ⊢
  rcases hab with h1 | ⟨h1, hs1⟩
  · rcases hbc with h2 | ⟨h2, _⟩
    · exact Or.inl (h1.trans h2)
    · exact Or.inl (h2 ▸ h1)
  · rcases hbc with h2 | ⟨h2, hs2⟩
    · exact Or.inl (h1 ▸ h2)
    · exact Or.inr ⟨h1.trans h2, hs1.trans hs2⟩

theorem normalize_kraken_eq {df : List KrakenRaw} {tmin tmax : Nat}
    (a : String) (i : Nat) (p : Rat)
    (h1 : (kraken_times df).min? = some tmin) (h2 : (kraken_times df).max? = some tmax) :
    normalize_kraken df a i p = Except.ok (attachFlags "kraken" a i p
      ((date_range tmin tmax (i * 60)).map (kraken_grid_row (kraken_dedup df)))) := by
  unfold normalize_kraken
  rw [h1, h2]

theorem drop_duplicates_by_cons_ne_nil {α β : Type} [DecidableEq β] (key : α → β)
    (x : α) (xs : List α) : drop_duplicates_by key (x :: xs) ≠ [] := by
  unfold drop_duplicates_by
  simp [drop_duplicates_by.go]

theorem cg_dedup_ne_nil {df : List CoingeckoRaw} (h : df ≠ []) : cg_dedup df ≠ [] := by
  unfold cg_dedup
  rcases hs : cg_sorted df with _ | ⟨x, xs⟩
  · exfalso
    apply h
    have hp := List.perm_insertionSort (fun a b => timeLeB a.ts b.ts = true) df
    rw [cg_sorted] at hs
    rw [hs] at hp
    exact hp.symm.eq_nil
  · exact drop_duplicates_by_cons_ne_nil _ x xs

theorem cg_times_of_dedup_nil {df : List CoingeckoRaw} (h : cg_dedup df = []) :
    cg_times df = [] := by
  unfold cg_times cg_valid
  rw [h]
  rfl

theorem normalize_coingecko_eq {df : List CoingeckoRaw} {tmin tmax : Nat}
    (a : String) (i : Nat) (p : Rat)
    (h1 : (cg_times df).min? = some tmin) (h2 : (cg_times df).max? = some tmax) :
    normalize_coingecko df a i p = Except.ok (attachFlags "coingecko" a i p
      ((date_range (cg_bucket (tmin / 86400 * 86400) (i * 60) tmin)
                   (cg_bucket (tmin / 86400 * 86400) (i * 60) tmax)
                   (i * 60)).map
        (cg_grid_row (cg_valid df) (tmin / 86400 * 86400) (i * 60)))) := by
  have hne : ¬ cg_dedup df = [] := by
    intro h0
    rw [cg_times_of_dedup_nil h0] at h1
    simp at h1
  unfold normalize_coingecko
  rw [if_neg hne, h1, h2]

theorem normalize_kraken_ok_elim {df : List KrakenRaw} {a : String} {i : Nat} {p : Rat}
    {out : List Candle} (h : normalize_kraken df a i p = Except.ok out) :
    ∃ tmin tmax, (kraken_times df).min? = some tmin ∧ (kraken_times df).max? = some tmax ∧
      out = attachFlags "kraken" a i p
        ((date_range tmin tmax (i * 60)).map (kraken_grid_row (kraken_dedup df))) := by
  unfold normalize_kraken at h
  split at h
  case _ tmin tmax h1 h2 =>
    exact ⟨tmin, tmax, h1, h2, (Except.ok.inj h).symm⟩
  case _ =>
    exact absurd h (by simp)

theorem normalize_coingecko_ok_elim {df : List CoingeckoRaw} {a : String} {i : Nat} {p : Rat}
    {out : List Candle} (h : normalize_coingecko df a i p = Except.ok out) :
    out = [] ∨
    ∃ tmin tmax, (cg_times df).min? = some tmin ∧ (cg_times df).max? = some tmax ∧
      out = attachFlags "coingecko" a i p
        ((date_range (cg_bucket (tmin / 86400 * 86400) (i * 60) tmin)
                     (cg_bucket (tmin / 86400 * 86400) (i * 60) tmax)
                     (i * 60)).map
          (cg_grid_row (cg_valid df) (tmin / 86400 * 86400) (i * 60))) := by
  unfold normalize_coingecko at h
  split at h
  · exact Or.inl (Except.ok.inj h).symm
  · split at h
    case _ tmin tmax h1 h2 =>
      exact Or.inr ⟨tmin, tmax, h1, h2, (Except.ok.inj h).symm⟩
    case _ =>
      exact absurd h (by simp)

theorem ts_kraken_grid_row (dd : List KrakenRaw) (g : Nat) :
    (kraken_grid_row dd g).ts_start = g := by
  unfold kraken_grid_row
  split <;> rfl

theorem ts_cg_grid_row (valid : List (Nat × Option Rat × Option Rat)) (day0 step b : Nat) :
    (cg_grid_row valid day0 step b).ts_start = b :=
  rfl

theorem optLtB_eq_true_iff (a b : Option Rat) : optLtB a b = true ↔ optLtP a b := by
  cases a <;> cases b <;> simp [optLtB, optLtP]

theorem flag_bad_candle_iff (o h l c : Option Rat) :
    _flag_bad_candle o h l c = true ↔
      (optLtP h o ∨ optLtP h c ∨ optLtP o l ∨ optLtP c l ∨ optLtP h l) := by
  simp [_flag_bad_candle, Bool.or_eq_true, optLtB_eq_true_iff, or_assoc]

theorem map_ts_attach_grid (s a : String) (i : Nat) (p : Rat) (g0 g1 step : Nat)
    (rowF : Nat → GridRow) (hts : ∀ g, (rowF g).ts_start = g) :
    (attachFlags s a i p ((date_range g0 g1 step).map rowF)).map (fun r => r.ts_start)
      = date_range g0 g1 step := by
  rw [map_ts_attachFlags, List.map_map]
  have h1 : ((fun b : GridRow => b.ts_start) ∘ rowF) = fun g => g := funext (fun g => hts g)
  rw [h1, List.map_id']

theorem sorted_lt_of_chain_step {l : List Nat} {s : Nat} (hs : 0 < s)
    (h : List.Chain' (fun x y => y = x + s) l) : List.Sorted (· < ·) l :=
  List.chain'_iff_pairwise.mp (h.imp (fun a b hxy => by omega))

theorem is_missing_attach (s a : String) (i : Nat) (p : Rat) (base : List GridRow) :
    ∀ r ∈ attachFlags s a i p base, r.is_missing = r.open_.isNone := by
  intro r hr
  rcases mem_attachFlags hr with ⟨b, sp, hb, rfl⟩
  rfl

/-! The claims. -/

/-- C1 (corrected).  The claim says both normalizers emit a gap-free grid of
ts_start values running from the minimum to the maximum raw timestamp.  The
gap-free arithmetic grid, the null filling of empty buckets and the
is_missing-iff-open-null equivalence all hold, but the anchoring claimed is
wrong for normalize_coingecko: its resample buckets are calendar-aligned
(freq multiples from midnight of the first day), so its grid starts at the
bucket floor of the minimum timestamp, not at the minimum timestamp itself
(and normalize_kraken ends at the last grid point at or below the maximum,
not necessarily at the maximum).  Amended statement proved here: for any
input with at least one parseable timestamp, normalize_kraken emits exactly
the grid tmin, tmin+60i, ... up to tmax, and normalize_coingecko emits
exactly the grid of calendar buckets from bucket(tmin) to bucket(tmax); both
grids are strictly increasing with consecutive spacing 60i, buckets with no
underlying row are present with all-null OHLCV and is_missing true, and
is_missing equals open-is-null on every row. -/
theorem C1_grid_amended
    (df : List KrakenRaw) (cdf : List CoingeckoRaw) (a : String) (i : Nat) (p : Rat)
    (hi : 0 < i)
    (tmin tmax : Nat)
    (h1 : (kraken_times df).min? = some tmin) (h2 : (kraken_times df).max? = some tmax)
    (ctmin ctmax : Nat)
    (h3 : (cg_times cdf).min? = some ctmin) (h4 : (cg_times cdf).max? = some ctmax) :
    (∃ out, normalize_kraken df a i p = Except.ok out ∧
      out.map (fun r => r.ts_start) = date_range tmin tmax (i * 60) ∧
      (out.map (fun r => r.ts_start)).head? = some tmin ∧
      List.Chain' (fun x y => y = x + i * 60) (out.map (fun r => r.ts_start)) ∧
      List.Sorted (· < ·) (out.map (fun r => r.ts_start)) ∧
      (∀ t, t ∈ kraken_times df ↔ ∃ r ∈ df, r.time = some t) ∧
      (∀ r ∈ out, r.is_missing = r.open_.isNone) ∧
      (∀ r ∈ out, (∀ raw ∈ kraken_dedup df, raw.time ≠ some r.ts_start) →
        r.open_ = none ∧ r.high = none ∧ r.low = none ∧ r.close = none ∧
        r.vwap = none ∧ r.volume = none ∧ r.count = none ∧ r.is_missing = true))
    ∧ (∃ cout, normalize_coingecko cdf a i p = Except.ok cout ∧
      cout.map (fun r => r.ts_start)
        = date_range (cg_bucket (ctmin / 86400 * 86400) (i * 60) ctmin)
            (cg_bucket (ctmin / 86400 * 86400) (i * 60) ctmax) (i * 60) ∧
      List.Chain' (fun x y => y = x + i * 60) (cout.map (fun r => r.ts_start)) ∧
      List.Sorted (· < ·) (cout.map (fun r => r.ts_start)) ∧
      (∀ t, t ∈ cg_times cdf ↔ ∃ r ∈ cdf, r.ts = some t) ∧
      (∀ r ∈ cout, r.is_missing = r.open_.isNone) ∧
      (∀ r ∈ cout,
        (∀ x ∈ cg_valid cdf, cg_bucket (ctmin / 86400 * 86400) (i * 60) x.1 ≠ r.ts_start) →
        r.open_ = none ∧ r.high = none ∧ r.low = none ∧ r.close = none ∧
        r.volume = none ∧ r.is_missing = true)) := by
  have hstep : 0 < i * 60 := by omega
  constructor
  · refine ⟨_, normalize_kraken_eq a i p h1 h2, ?_, ?_, ?_, ?_, ?_, ?_, ?_⟩
    · exact map_ts_attach_grid "kraken" a i p tmin tmax (i * 60) _
        (ts_kraken_grid_row (kraken_dedup df))
    · rw [map_ts_attach_grid "kraken" a i p tmin tmax (i * 60) _
        (ts_kraken_grid_row (kraken_dedup df))]
      exact head?_date_range tmin tmax (i * 60)
    · rw [map_ts_attach_grid "kraken" a i p tmin tmax (i * 60) _
        (ts_kraken_grid_row (kraken_dedup df))]
      exact chain'_date_range tmin tmax (i * 60)
    · rw [map_ts_attach_grid "kraken" a i p tmin tmax (i * 60) _
        (ts_kraken_grid_row (kraken_dedup df))]
      exact sorted_lt_of_chain_step hstep (chain'_date_range tmin tmax (i * 60))
    · exact mem_kraken_times df
    · exact is_missing_attach "kraken" a i p _
    · intro r hr hnone
      rcases mem_attachFlags hr with ⟨b, sp, hb, rfl⟩
      rcases List.mem_map.mp hb with ⟨g, hg, rfl⟩
      have hts2 : (candleOf "kraken" a i (kraken_grid_row (kraken_dedup df) g) sp).ts_start
          = g := ts_kraken_grid_row (kraken_dedup df) g
      rw [hts2] at hnone
      have hf : (kraken_dedup df).find? (fun raw => decide (raw.time = some g)) = none := by
        rw [List.find?_eq_none]
        intro x hx
        simpa using hnone x hx
      have hrow : kraken_grid_row (kraken_dedup df) g =
          { ts_start := g, open_ := none, high := none, low := none, close := none,
            vwap := none, volume := none, count := none } := by
        unfold kraken_grid_row
        rw [hf]
      rw [hrow]
      exact ⟨rfl, rfl, rfl, rfl, rfl, rfl, rfl, rfl⟩
  · refine ⟨_, normalize_coingecko_eq a i p h3 h4, ?_, ?_, ?_, ?_, ?_, ?_⟩
    · exact map_ts_attach_grid "coingecko" a i p _ _ (i * 60) _
        (ts_cg_grid_row (cg_valid cdf) (ctmin / 86400 * 86400) (i * 60))
    · rw [map_ts_attach_grid "coingecko" a i p _ _ (i * 60) _
        (ts_cg_grid_row (cg_valid cdf) (ctmin / 86400 * 86400) (i * 60))]
      exact chain'_date_range _ _ (i * 60)
    · rw [map_ts_attach_grid "coingecko" a i p _ _ (i * 60) _
        (ts_cg_grid_row (cg_valid cdf) (ctmin / 86400 * 86400) (i * 60))]
      exact sorted_lt_of_chain_step hstep (chain'_date_range _ _ (i * 60))
    · exact mem_cg_times cdf
    · exact is_missing_attach "coingecko" a i p _
    · intro r hr hnone
      rcases mem_attachFlags hr with ⟨b, sp, hb, rfl⟩
      rcases List.mem_map.mp hb with ⟨g, hg, rfl⟩
      have hfil : (cg_valid cdf).filter
          (fun x => decide (cg_bucket (ctmin / 86400 * 86400) (i * 60) x.1 = g)) = [] := by
        rw [List.filter_eq_nil]
        intro x hx
        simpa using hnone x hx
      have hrow : cg_grid_row (cg_valid cdf) (ctmin / 86400 * 86400) (i * 60) g =
          { ts_start := g, open_ := none, high := none, low := none, close := none,
            vwap := none, volume := none, count := none } := by
        unfold cg_grid_row
        rw [hfil]
        rfl
      rw [hrow]
      exact ⟨rfl, rfl, rfl, rfl, rfl, rfl⟩

/-- C1 counterexample.  A single CoinGecko tick at second 180 (minute 3 of
the day) with interval_min = 5: the minimum raw timestamp is 180, but the
only emitted ts_start is the calendar bucket 0, so the ts_start sequence
does not run from the minimum raw timestamp as the claim states. -/
theorem C1_counterexample :
    cg_times exCg = [180] ∧
    ∃ cout, normalize_coingecko exCg "BTC" 5 (mkRat 1 10) = Except.ok cout ∧
      cout.map (fun r => r.ts_start) = [0] :=
  ⟨by with_unfolding_all decide,
   [exCgRow], by with_unfolding_all rfl, by with_unfolding_all decide⟩

/-- C1 witness: the amended grid facts at the concrete inputs exKr
(timestamps 0 and 600, one hole) and exCg (one tick at 180). -/
theorem C1_witness :
    ((0:Nat) < 5 ∧ (kraken_times exKr).min? = some 0 ∧ (kraken_times exKr).max? = some 600 ∧
      (cg_times exCg).min? = some 180 ∧ (cg_times exCg).max? = some 180) ∧
    (∃ out, normalize_kraken exKr "BTC" 5 (mkRat 1 10) = Except.ok out ∧
      out.map (fun r => r.ts_start) = date_range 0 600 (5 * 60)) ∧
    (∃ cout, normalize_coingecko exCg "BTC" 5 (mkRat 1 10) = Except.ok cout ∧
      cout.map (fun r => r.ts_start)
        = date_range (cg_bucket (180 / 86400 * 86400) (5 * 60) 180)
            (cg_bucket (180 / 86400 * 86400) (5 * 60) 180) (5 * 60)) := by
  have h := C1_grid_amended exKr exCg "BTC" 5 (mkRat 1 10) (by decide) 0 600
    (by with_unfolding_all decide) (by with_unfolding_all decide) 180 180
    (by with_unfolding_all decide) (by with_unfolding_all decide)
  refine ⟨⟨by decide, by with_unfolding_all decide, by with_unfolding_all decide,
    by with_unfolding_all decide, by with_unfolding_all decide⟩, ?_, ?_⟩
  · rcases h.1 with ⟨out, hok, hmap, -⟩
    exact ⟨out, hok, hmap⟩
  · rcases h.2 with ⟨cout, hok, hmap, -⟩
    exact ⟨cout, hok, hmap⟩

/-- C9 (confirmed).  The two normalizers anchor their grids differently:
normalize_kraken starts exactly at the minimum parsed timestamp and every
ts_start is that minimum plus a multiple of 60*interval_min, while every
normalize_coingecko ts_start is a multiple of 60*interval_min counted from
midnight of the first day (a number that is 0 mod 86400), so the same
interval_min can yield offset grids across the two sources. -/
theorem C9_grid_anchoring
    (df : List KrakenRaw) (cdf : List CoingeckoRaw) (a : String) (i : Nat) (p : Rat)
    (tmin tmax : Nat)
    (h1 : (kraken_times df).min? = some tmin) (h2 : (kraken_times df).max? = some tmax)
    (ctmin ctmax : Nat)
    (h3 : (cg_times cdf).min? = some ctmin) (h4 : (cg_times cdf).max? = some ctmax) :
    (∃ out, normalize_kraken df a i p = Except.ok out ∧
      (out.map (fun r => r.ts_start)).head? = some tmin ∧
      ∀ r ∈ out, ∃ k, r.ts_start = tmin + i * 60 * k)
    ∧ ((ctmin / 86400 * 86400) % 86400 = 0 ∧
      ∃ cout, normalize_coingecko cdf a i p = Except.ok cout ∧
        ∀ r ∈ cout, ∃ k, r.ts_start = ctmin / 86400 * 86400 + i * 60 * k) := by
  constructor
  · refine ⟨_, normalize_kraken_eq a i p h1 h2, ?_, ?_⟩
    · rw [map_ts_attach_grid "kraken" a i p tmin tmax (i * 60) _
        (ts_kraken_grid_row (kraken_dedup df))]
      exact head?_date_range tmin tmax (i * 60)
    · intro r hr
      rcases mem_attachFlags hr with ⟨b, sp, hb, rfl⟩
      rcases List.mem_map.mp hb with ⟨g, hg, rfl⟩
      have hts2 : (candleOf "kraken" a i (kraken_grid_row (kraken_dedup df) g) sp).ts_start
          = g := ts_kraken_grid_row (kraken_dedup df) g
      rw [hts2]
      exact mem_date_range hg
  · refine ⟨Nat.mul_mod_left _ _, _, normalize_coingecko_eq a i p h3 h4, ?_⟩
    intro r hr
    rcases mem_attachFlags hr with ⟨b, sp, hb, rfl⟩
    rcases List.mem_map.mp hb with ⟨g, hg, rfl⟩
    rcases mem_date_range hg with ⟨k, hk⟩
    refine ⟨(ctmin - ctmin / 86400 * 86400) / (i * 60) + k, ?_⟩
    have hts2 : (candleOf "coingecko" a i
        (cg_grid_row (cg_valid cdf) (ctmin / 86400 * 86400) (i * 60) g) sp).ts_start = g := rfl
    rw [hts2, hk]
    unfold cg_bucket
    ring

/-- C9 witness: exKr anchors at its minimum timestamp 0; exCg anchors at the
midnight-aligned bucket although its minimum timestamp is 180. -/
theorem C9_witness :
    ((kraken_times exKr).min? = some 0 ∧ (cg_times exCg).min? = some 180) ∧
    (∃ out, normalize_kraken exKr "BTC" 5 (mkRat 1 10) = Except.ok out ∧
      (out.map (fun r => r.ts_start)).head? = some 0 ∧
      ∀ r ∈ out, ∃ k, r.ts_start = 0 + 5 * 60 * k) ∧
    ((180 / 86400 * 86400) % 86400 = 0 ∧
      ∃ cout, normalize_coingecko exCg "BTC" 5 (mkRat 1 10) = Except.ok cout ∧
        ∀ r ∈ cout, ∃ k, r.ts_start = 180 / 86400 * 86400 + 5 * 60 * k) := by
  have h := C9_grid_anchoring exKr exCg "BTC" 5 (mkRat 1 10) 0 600
    (by with_unfolding_all decide) (by with_unfolding_all decide) 180 180
    (by with_unfolding_all decide) (by with_unfolding_all decide)
  exact ⟨⟨by with_unfolding_all decide, by with_unfolding_all decide⟩, h.1, h.2⟩

/-- C3 (corrected).  The claim says an empty input table, or one whose
timestamps all fail to parse, makes normalization fail with a DataError.  The
repository defines no DataError type at all.  What the code does:
normalize_kraken fails on empty or all-unparseable input with the pandas
ValueError raised by pd.date_range on NaT bounds; normalize_coingecko on a
zero-row input short-circuits inside resample and quietly returns an empty
candle table, while on a non-empty input whose timestamps all fail to parse
its bin edges are NaT and the same pd.date_range ValueError is raised.
Amended statement proved here: normalize_kraken errors whenever every
timestamp is NaT (including the empty table); normalize_coingecko returns an
empty table without raising exactly on the empty input, and errors on a
non-empty all-NaT input. -/
theorem C3_error_behavior_amended :
    (∀ (df : List KrakenRaw) (a : String) (i : Nat) (p : Rat), (∀ r ∈ df, r.time = none) →
      ∃ e, normalize_kraken df a i p = Except.error e)
    ∧ (∀ (a : String) (i : Nat) (p : Rat) (cdf : List CoingeckoRaw), cdf = [] →
      normalize_coingecko cdf a i p = Except.ok [])
    ∧ (∀ (cdf : List CoingeckoRaw) (a : String) (i : Nat) (p : Rat), cdf ≠ [] →
      (∀ r ∈ cdf, r.ts = none) →
      ∃ e, normalize_coingecko cdf a i p = Except.error e) := by
  refine ⟨?_, ?_, ?_⟩
  · intro df a i p hall
    have ht : kraken_times df = [] := by
      unfold kraken_times
      rw [List.filterMap_eq_nil]
      intro r hr
      exact hall r ((List.mem_insertionSort _).mp (mem_drop_duplicates_by _ _ hr))
    have he : normalize_kraken df a i p
        = Except.error "ValueError in date_range, start or end is NaT" := by
      unfold normalize_kraken
      rw [ht]
      rfl
    exact ⟨_, he⟩
  · intro a i p cdf hnil
    subst hnil
    rfl
  · intro cdf a i p hne hall
    have hv : cg_valid cdf = [] := by
      unfold cg_valid
      rw [List.filterMap_eq_nil]
      intro r hr
      rw [hall r ((List.mem_insertionSort _).mp (mem_drop_duplicates_by _ _ hr))]
      rfl
    have ht : cg_times cdf = [] := by
      unfold cg_times
      rw [hv]
      rfl
    have he : normalize_coingecko cdf a i p
        = Except.error "ValueError in date_range, start or end is NaT" := by
      unfold normalize_coingecko
      rw [if_neg (cg_dedup_ne_nil hne), ht]
      rfl
    exact ⟨_, he⟩

/-- C3 counterexample.  On the empty input table the claim demands a
DataError failure, but normalize_coingecko returns normally with an empty
candle table (resample short-circuits on a length-zero axis; nothing
raises). -/
theorem C3_counterexample :
    normalize_coingecko ([] : List CoingeckoRaw) "BTC" 5 (mkRat 1 10) = Except.ok [] :=
  rfl

/-- C3 witness: the amended behaviors at concrete inputs, including the
non-empty all-NaT CoinGecko frame that raises rather than returning empty. -/
theorem C3_witness :
    ((∀ r ∈ exKrNaT, r.time = none) ∧ exCgNaT ≠ [] ∧ (∀ r ∈ exCgNaT, r.ts = none)) ∧
    (∃ e, normalize_kraken exKrNaT "BTC" 5 (mkRat 1 10) = Except.error e) ∧
    normalize_coingecko ([] : List CoingeckoRaw) "BTC" 5 (mkRat 1 10) = Except.ok [] ∧
    (∃ e, normalize_coingecko exCgNaT "BTC" 5 (mkRat 1 10) = Except.error e) :=
  ⟨⟨by with_unfolding_all decide, by with_unfolding_all decide, by with_unfolding_all decide⟩,
   C3_error_behavior_amended.1 exKrNaT "BTC" 5 (mkRat 1 10) (by with_unfolding_all decide),
   C3_error_behavior_amended.2.1 "BTC" 5 (mkRat 1 10) [] rfl,
   C3_error_behavior_amended.2.2 exCgNaT "BTC" 5 (mkRat 1 10) (by with_unfolding_all decide)
     (by with_unfolding_all decide)⟩

/-- C5 (confirmed).  On every row produced by either normalizer, and on
every row of a combined table whose input rows satisfy it, anomaly_flag
equals bad_candle OR spike_flag; all three flags are Bool-valued (never
null) by construction of the embedding, which mirrors the fillna(False)
treatment in the code. -/
theorem C5_anomaly_flag :
    (∀ (df : List KrakenRaw) (a : String) (i : Nat) (p : Rat) (out : List Candle),
      normalize_kraken df a i p = Except.ok out →
      ∀ r ∈ out, r.anomaly_flag = (r.bad_candle || r.spike_flag))
    ∧ (∀ (cdf : List CoingeckoRaw) (a : String) (i : Nat) (p : Rat) (cout : List Candle),
      normalize_coingecko cdf a i p = Except.ok cout →
      ∀ r ∈ cout, r.anomaly_flag = (r.bad_candle || r.spike_flag))
    ∧ (∀ (t1 t2 : List Candle),
      (∀ r ∈ t1 ++ t2, r.anomaly_flag = (r.bad_candle || r.spike_flag)) →
      ∀ r ∈ combine t1 t2, r.anomaly_flag = (r.bad_candle || r.spike_flag)) := by
  refine ⟨?_, ?_, ?_⟩
  · intro df a i p out h r hr
    rcases normalize_kraken_ok_elim h with ⟨tmin, tmax, h1, h2, rfl⟩
    rcases mem_attachFlags hr with ⟨b, sp, hb, rfl⟩
    rfl
  · intro cdf a i p cout h r hr
    rcases normalize_coingecko_ok_elim h with rfl | ⟨tmin, tmax, h1, h2, rfl⟩
    · simp at hr
    · rcases mem_attachFlags hr with ⟨b, sp, hb, rfl⟩
      rfl
  · intro t1 t2 hall r hr
    exact hall r ((List.mem_insertionSort _).mp hr)

/-- C5 witness: the anomalous exKr row at second 600. -/
theorem C5_witness :
    normalize_kraken exKr "BTC" 5 (mkRat 1 10) = Except.ok exKrOut ∧
    exKrRow600 ∈ exKrOut ∧
    exKrRow600.anomaly_flag = (exKrRow600.bad_candle || exKrRow600.spike_flag) :=
  ⟨by with_unfolding_all rfl, by with_unfolding_all decide,
   C5_anomaly_flag.1 exKr "BTC" 5 (mkRat 1 10) exKrOut (by with_unfolding_all rfl)
     exKrRow600 (by with_unfolding_all decide)⟩

/-- C6 (confirmed).  The combined output is a permutation of the
concatenation of the inputs (every row kept, no deduplication) and is sorted
by ts_start ascending with ties broken by source ascending. -/
theorem C6_combine_sorted_concat (t1 t2 : List Candle) :
    (combine t1 t2).Perm (t1 ++ t2) ∧
    List.Sorted
      (fun a b : Candle => a.ts_start < b.ts_start ∨ (a.ts_start = b.ts_start ∧ a.source ≤ b.source))
      (combine t1 t2) := by
  constructor
  · exact List.perm_insertionSort _ _
  · have hs := List.sorted_insertionSort (fun a b : Candle => candle_le a b = true) (t1 ++ t2)
    exact List.Pairwise.imp (fun {a b} h => (candle_le_iff a b).mp h) hs

/-- C7 (confirmed).  Normalization is deterministic: two runs on the same
input produce the same output table.  Freedom from side effects holds by
construction of the embedding: both normalizers are pure functions of their
arguments (the code copies its input frame before touching it). -/
theorem C7_normalize_deterministic (df : List KrakenRaw) (cdf : List CoingeckoRaw)
    (a : String) (i : Nat) (p : Rat) :
    (run_twice_kraken df a i p).1 = (run_twice_kraken df a i p).2 ∧
    (run_twice_coingecko cdf a i p).1 = (run_twice_coingecko cdf a i p).2 :=
  ⟨rfl, rfl⟩

/-- C8 (confirmed).  Combining two single-source tables with distinct source
values and filtering the result back by each source value reproduces each
input table up to row order. -/
theorem C8_roundtrip_by_source (t1 t2 : List Candle) (s1 s2 : String) (hne : s1 ≠ s2)
    (h1 : ∀ r ∈ t1, r.source = s1) (h2 : ∀ r ∈ t2, r.source = s2) :
    ((combine t1 t2).filter (fun r => decide (r.source = s1))).Perm t1 ∧
    ((combine t1 t2).filter (fun r => decide (r.source = s2))).Perm t2 := by
  have hp : (combine t1 t2).Perm (t1 ++ t2) := List.perm_insertionSort _ _
  constructor
  · have hf := hp.filter (fun r => decide (r.source = s1))
    have e1 : List.filter (fun r => decide (r.source = s1)) t1 = t1 :=
      List.filter_eq_self.mpr (fun a ha => by simp [h1 a ha])
    have e2 : List.filter (fun r => decide (r.source = s1)) t2 = [] :=
      List.filter_eq_nil.mpr (fun a ha => by
        simp only [decide_eq_true_eq]
        rw [h2 a ha]
        exact fun hh => hne hh.symm)
    rw [List.filter_append, e1, e2, List.append_nil] at hf
    exact hf
  · have hf := hp.filter (fun r => decide (r.source = s2))
    have e1 : List.filter (fun r => decide (r.source = s2)) t1 = [] :=
      List.filter_eq_nil.mpr (fun a ha => by
        simp only [decide_eq_true_eq]
        rw [h1 a ha]
        exact fun hh => hne hh)
    have e2 : List.filter (fun r => decide (r.source = s2)) t2 = t2 :=
      List.filter_eq_self.mpr (fun a ha => by simp [h2 a ha])
    rw [List.filter_append, e1, e2, List.nil_append] at hf
    exact hf

/-- C8 witness: one providerA row and one providerB row at the same
timestamp round-trip through the combiner. -/
theorem C8_witness :
    ("coingecko" ≠ "kraken") ∧
    (∀ r ∈ exT1, r.source = "coingecko") ∧ (∀ r ∈ exT2, r.source = "kraken") ∧
    ((combine exT1 exT2).filter (fun r => decide (r.source = "coingecko"))).Perm exT1 ∧
    ((combine exT1 exT2).filter (fun r => decide (r.source = "kraken"))).Perm exT2 :=
  ⟨by with_unfolding_all decide, by with_unfolding_all decide, by with_unfolding_all decide,
   (C8_roundtrip_by_source exT1 exT2 "coingecko" "kraken" (by with_unfolding_all decide)
     (by with_unfolding_all decide) (by with_unfolding_all decide)).1,
   (C8_roundtrip_by_source exT1 exT2 "coingecko" "kraken" (by with_unfolding_all decide)
     (by with_unfolding_all decide) (by with_unfolding_all decide)).2⟩

/-- C10 (confirmed).  Every row of a normalize_coingecko output table has
null vwap and null count: the tick provider supplies neither, and the code
constant-fills both columns with pd.NA. -/
theorem C10_cg_vwap_count_null (cdf : List CoingeckoRaw) (a : String) (i : Nat) (p : Rat)
    (cout : List Candle) (h : normalize_coingecko cdf a i p = Except.ok cout) :
    ∀ r ∈ cout, r.vwap = none ∧ r.count = none := by
  intro r hr
  rcases normalize_coingecko_ok_elim h with rfl | ⟨tmin, tmax, h1, h2, rfl⟩
  · simp at hr
  · rcases mem_attachFlags hr with ⟨b, sp, hb, rfl⟩
    rcases List.mem_map.mp hb with ⟨g, hg, rfl⟩
    exact ⟨rfl, rfl⟩

/-- C2 (corrected).  The claim says the spike comparison never reaches
across a missing-candle gap to the nearest non-null close.  In pandas 2.x
(which this code requires) close.pct_change() defaults to fill_method="pad",
so the close column is forward-filled first and the comparison DOES reach
across gaps.  Amended statement proved here, for positive closes: spike_flag
at row t is true iff close[t] is non-null, some earlier row has a non-null
close, and the relative change against the nearest earlier non-null close
(lastVal of the prefix) exceeds spike_pct.  Consequences match the rest of
the claim: the first row is false, and a row whose own close is null is
false.  Both normalizers compute their spike_flag column as _flag_spike of
their close column. -/
theorem C2_spike_pad_amended (p : Rat) (hp : 0 ≤ p) :
    (∀ closes : List (Option Rat), (∀ x ∈ closes, ∀ v, x = some v → 0 < v) →
      ∀ t : Nat,
        ((_flag_spike p closes)[t]? = some true ↔
          ∃ cur pv, closes[t]? = some (some cur) ∧
            lastVal none (closes.take t) = some pv ∧ |cur / pv - 1| > p))
    ∧ (∀ (df : List KrakenRaw) (a : String) (i : Nat) (out : List Candle),
        normalize_kraken df a i p = Except.ok out →
        out.map (fun r => r.spike_flag) = _flag_spike p (out.map (fun r => r.close)))
    ∧ (∀ (cdf : List CoingeckoRaw) (a : String) (i : Nat) (cout : List Candle),
        normalize_coingecko cdf a i p = Except.ok cout →
        cout.map (fun r => r.spike_flag) = _flag_spike p (cout.map (fun r => r.close))) := by
  refine ⟨?_, ?_, ?_⟩
  · intro closes hpos t
    by_cases ht : t < closes.length
    · have hg := spikeAux_getElem? p none closes t ht
      have hcne : closes[t]? ≠ none := by
        rw [ne_eq, List.getElem?_eq_none_iff]
        omega
      rcases hco : closes[t]? with _ | c
      · exact absurd hco hcne
      · have hB : lastVal none (closes.take (t + 1))
            = c.or (lastVal none (closes.take t)) := by
          rw [List.take_succ, lastVal_append, hco]
          rfl
        simp only [_flag_spike]
        rw [hg]
        constructor
        · intro hEq
          have hv : spikeVal p (lastVal none (closes.take t))
              (lastVal none (closes.take (t + 1))) = true := Option.some.inj hEq
          rcases hA : lastVal none (closes.take t) with _ | pv
          · rw [hB, hA] at hv
            rcases c with _ | cur <;> simp [spikeVal, Option.or] at hv
          · rw [hB, hA] at hv
            rcases c with _ | cur
            · have hpv : (0:Rat) < pv := by
                rcases lastVal_mem hA with hm | hm
                · exact hpos _ (List.mem_of_mem_take hm) pv rfl
                · exact Option.noConfusion hm
              have hgt : |pv / pv - 1| > p := by
                simpa [spikeVal, Option.or] using hv
              rw [div_self (ne_of_gt hpv)] at hgt
              norm_num at hgt
              exact absurd hgt (not_lt.mpr hp)
            · have hgt : |cur / pv - 1| > p := by
                simpa [spikeVal, Option.or] using hv
              exact ⟨cur, pv, rfl, rfl, hgt⟩
        · rintro ⟨cur, pv, hcur, hA, hgt⟩
          have hcc : c = some cur := Option.some.inj hcur
          subst hcc
          rw [hB, hA]
          simp [spikeVal, Option.or, hgt]
    · have hge : closes.length ≤ t := Nat.le_of_not_lt ht
      constructor
      · intro hEq
        have hnone : (_flag_spike p closes)[t]? = none :=
          List.getElem?_eq_none (by rw [length_flag_spike]; exact hge)
        rw [hnone] at hEq
        exact Option.noConfusion hEq
      · rintro ⟨cur, pv, hcur, -, -⟩
        rw [List.getElem?_eq_none hge] at hcur
        exact Option.noConfusion hcur
  · intro df a i out h
    rcases normalize_kraken_ok_elim h with ⟨tmin, tmax, h1, h2, rfl⟩
    rw [map_spike_attachFlags, map_close_attachFlags]
  · intro cdf a i cout h
    rcases normalize_coingecko_ok_elim h with rfl | ⟨tmin, tmax, h1, h2, rfl⟩
    · rfl
    · rw [map_spike_attachFlags, map_close_attachFlags]

/-- C2 counterexample.  Kraken closes 100, NaN (missing candle), 150 with
spike_pct = 0.10: the claim requires spike_flag false on the last row (it is
adjacent to a null close), but the code forward-fills and compares 150
against 100, flagging it true. -/
theorem C2_counterexample :
    normalize_kraken exKr "BTC" 5 (mkRat 1 10) = Except.ok exKrOut ∧
    exKrOut.map (fun r => r.close) = [some 100, none, some 150] ∧
    exKrOut.map (fun r => r.spike_flag) = [false, false, true] := by
  refine ⟨?_, ?_, ?_⟩
  · with_unfolding_all rfl
  · with_unfolding_all decide
  · with_unfolding_all decide

/-- C2 witness: the amended characterization evaluated on the close column
100, NaN, 150 at threshold 0.10. -/
theorem C2_witness :
    ((0:Rat) ≤ mkRat 1 10) ∧ (∀ x ∈ exCloses, ∀ v, x = some v → 0 < v) ∧
    (∀ t : Nat,
      ((_flag_spike (mkRat 1 10) exCloses)[t]? = some true ↔
        ∃ cur pv, exCloses[t]? = some (some cur) ∧
          lastVal none (exCloses.take t) = some pv ∧ |cur / pv - 1| > mkRat 1 10)) :=
  ⟨by with_unfolding_all decide, by with_unfolding_all decide,
   (C2_spike_pad_amended (mkRat 1 10) (by with_unfolding_all decide)).1 exCloses
     (by with_unfolding_all decide)⟩

/-- C4 (confirmed).  On every row of either normalizer output, bad_candle is
true exactly when high < open, or high < close, or low > open, or low > close,
or low > high (value comparisons; a comparison against a null cell never
holds, matching the NaN semantics plus fillna(False)), and a row whose OHLC
cells are all null has bad_candle = false, a Bool, never null. -/
theorem C4_bad_candle_rule :
    (∀ (df : List KrakenRaw) (a : String) (i : Nat) (p : Rat) (out : List Candle),
      normalize_kraken df a i p = Except.ok out →
      ∀ r ∈ out, (r.bad_candle = true ↔ bad_candle_spec r) ∧
        ((r.open_ = none ∧ r.high = none ∧ r.low = none ∧ r.close = none) →
          r.bad_candle = false))
    ∧ (∀ (cdf : List CoingeckoRaw) (a : String) (i : Nat) (p : Rat) (cout : List Candle),
      normalize_coingecko cdf a i p = Except.ok cout →
      ∀ r ∈ cout, (r.bad_candle = true ↔ bad_candle_spec r) ∧
        ((r.open_ = none ∧ r.high = none ∧ r.low = none ∧ r.close = none) →
          r.bad_candle = false)) := by
  have key : ∀ (s a : String) (i : Nat) (b : GridRow) (sp : Bool),
      ((candleOf s a i b sp).bad_candle = true ↔ bad_candle_spec (candleOf s a i b sp)) ∧
      (((candleOf s a i b sp).open_ = none ∧ (candleOf s a i b sp).high = none ∧
        (candleOf s a i b sp).low = none ∧ (candleOf s a i b sp).close = none) →
        (candleOf s a i b sp).bad_candle = false) := by
    intro s a i b sp
    constructor
    · show _flag_bad_candle b.open_ b.high b.low b.close = true ↔ _
      rw [flag_bad_candle_iff]
      exact Iff.rfl
    · rintro ⟨ho, hh, hl, hc⟩
      show _flag_bad_candle b.open_ b.high b.low b.close = false
      have ho2 : b.open_ = none := ho
      have hh2 : b.high = none := hh
      have hl2 : b.low = none := hl
      have hc2 : b.close = none := hc
      rw [ho2, hh2, hl2, hc2]
      rfl
  constructor
  · intro df a i p out h r hr
    rcases normalize_kraken_ok_elim h with ⟨tmin, tmax, h1, h2, rfl⟩
    rcases mem_attachFlags hr with ⟨b, sp, hb, rfl⟩
    exact key _ _ _ b sp
  · intro cdf a i p cout h r hr
    rcases normalize_coingecko_ok_elim h with rfl | ⟨tmin, tmax, h1, h2, rfl⟩
    · simp at hr
    · rcases mem_attachFlags hr with ⟨b, sp, hb, rfl⟩
      exact key _ _ _ b sp

/-- C4 witness: the spec scenario open=10, high=5, low=1, close=8 comes out
with bad_candle = true. -/
theorem C4_witness :
    normalize_kraken exKrBad "BTC" 5 (mkRat 1 10) = Except.ok [exKrBadRow] ∧
    exKrBadRow ∈ [exKrBadRow] ∧
    exKrBadRow.bad_candle = true ∧
    ((exKrBadRow.bad_candle = true ↔ bad_candle_spec exKrBadRow) ∧
      ((exKrBadRow.open_ = none ∧ exKrBadRow.high = none ∧ exKrBadRow.low = none ∧
        exKrBadRow.close = none) → exKrBadRow.bad_candle = false)) :=
  ⟨by with_unfolding_all rfl, by with_unfolding_all decide, by with_unfolding_all decide,
   C4_bad_candle_rule.1 exKrBad "BTC" 5 (mkRat 1 10) [exKrBadRow] (by with_unfolding_all rfl)
     exKrBadRow (by with_unfolding_all decide)⟩

/-- C10 witness: the single exCg output row. -/
theorem C10_witness :
    normalize_coingecko exCg "BTC" 5 (mkRat 1 10) = Except.ok [exCgRow] ∧
    exCgRow ∈ [exCgRow] ∧ exCgRow.vwap = none ∧ exCgRow.count = none :=
  ⟨by with_unfolding_all rfl, by with_unfolding_all decide,
   C10_cg_vwap_count_null exCg "BTC" 5 (mkRat 1 10) [exCgRow] (by with_unfolding_all rfl)
     exCgRow (by with_unfolding_all decide)⟩

end CryptoPipeline
